import Mathlib

/-!
Verification of the population-density lookup pipeline
(`src/PopDensityLooker.py`) against its natural-language specification.

The Python source is shallowly embedded over `List Char` (Python strings)
and `List Nat` (byte strings).  Network I/O is modelled by an oracle
`net : List Char → Response` mapping the request URL to the HTTP outcome;
Streamlit UI calls are modelled only where a claim mentions them (the
warning messages of `get_population_density`).
-/

/-- Python `str.strip()` whitespace, restricted to the ASCII whitespace
characters (space, tab, newline, carriage return, vertical tab, form feed). -/
def isPySpace (c : Char) : Bool :=
  c = ' ' || c = '\t' || c = '\n' || c = '\r' || c = '\x0b' || c = '\x0c'

/-- Remove trailing whitespace (the right half of Python `str.strip()`). -/
def rstrip (s : List Char) : List Char :=
  ((s.reverse.dropWhile isPySpace)).reverse

/-- Python `str.strip()`: drop leading and trailing whitespace. -/
def pyStrip (s : List Char) : List Char :=
  rstrip (s.dropWhile isPySpace)

/-- Python `str.zfill(width)`: left-pad with ASCII `'0'` up to `width`;
a leading `'+'` or `'-'` stays in front of the padding. -/
def pyZfill (width : Nat) (s : List Char) : List Char :=
  if width ≤ s.length then s
  else
    match s with
    | [] => List.replicate width '0'
    | c :: cs =>
      if c = '+' ∨ c = '-' then c :: (List.replicate (width - (c :: cs).length) '0' ++ cs)
      else List.replicate (width - (c :: cs).length) '0' ++ (c :: cs)

/-- Python `str.split('-')`: split at every hyphen, keeping empty pieces. -/
def splitOnHyphen : List Char → List (List Char)
  | [] => [[]]
  | c :: cs =>
    if c = '-' then [] :: splitOnHyphen cs
    else
      match splitOnHyphen cs with
      | [] => [[c]]
      | p :: ps => (c :: p) :: ps

/-- `format_zipcode` (source lines 9–32): strip the input; a hyphenated form
has its first segment zero-filled to 5 and the second segment re-attached
(later segments are dropped); otherwise non-digits are removed and a 4-digit
result is zero-filled to 5, a 5-digit result is returned as the digit string,
and anything else returns the stripped input. -/
def format_zipcode (zip_code : List Char) : List Char :=
  let zip_str := pyStrip zip_code
  if ('-' : Char) ∈ zip_str then
    match splitOnHyphen zip_str with
    | [] => []
    | main :: rest =>
      let main_zip := pyZfill 5 main
      match rest with
      | p1 :: _ => main_zip ++ '-' :: p1
      | [] => main_zip
  else
    let zip_digits := zip_str.filter Char.isDigit
    if zip_digits.length = 4 then pyZfill 5 zip_digits
    else if zip_digits.length = 5 then zip_digits
    else zip_str

example : format_zipcode ("1234".data) = "01234".data := by decide
example : format_zipcode ("90210".data) = "90210".data := by decide
example : format_zipcode ("1234-5678".data) = "01234-5678".data := by decide
example : format_zipcode ("12a34".data) = "01234".data := by decide
example : format_zipcode ("1-2 -3".data) = "00001-2 ".data := by decide
example : format_zipcode (format_zipcode ("1-2 -3".data)) = "00001-2".data := by decide

/-! ## Density extraction (source lines 70–82)

The two regular expressions of `get_population_density` are embedded
directly.  Both are anchored by literal fragments, and every repeated
character class is disjoint from the character that must follow it, so
Python's leftmost, greedy backtracking search coincides with a
maximal-munch scan tried at each start position from the left. -/

/-- `pat.beginsWith s`? Literal prefix test. -/
def beginsWith : List Char → List Char → Bool
  | [], _ => true
  | _ :: _, [] => false
  | p :: ps, c :: cs => (p == c) && beginsWith ps cs

/-- The character class `[\d,]` of the primary pattern. -/
def isNumChar (c : Char) : Bool := c.isDigit || c = ','

/-- The character class `[\d,\.]` of the fallback pattern (also the full
character set a captured group of either pattern can contain). -/
def isAltNumChar (c : Char) : Bool := c.isDigit || c = ',' || c = '.'

/-- Greedy match of `[\d,]+(?:\.\d+)?` at the head of `s`: the captured
number text together with the remaining input.  `[\d,]+` takes the maximal
run; `(?:\.\d+)?` is taken when a dot followed by at least one digit comes
next (shrinking either run re-exposes a digit or comma, which can match
neither `\.` nor the literal that follows, so no other backtrack succeeds). -/
def matchNumberTail (run : List Char) : List Char → Option (List Char × List Char)
  | [] => some (run, [])
  | c :: r2 =>
    if c = '.' then
      let frac := r2.takeWhile Char.isDigit
      if frac = [] then some (run, c :: r2)
      else some (run ++ c :: frac, r2.dropWhile Char.isDigit)
    else some (run, c :: r2)

def matchNumber (s : List Char) : Option (List Char × List Char) :=
  let run := s.takeWhile isNumChar
  if run = [] then none
  else matchNumberTail run (s.dropWhile isNumChar)

/-- The literal before the captured group of the primary pattern. -/
def densityLit : List Char := "population density of ".data

/-- The literal after the captured group of the primary pattern. -/
def densityTail : List Char := " people per square mile".data

/-- After the captured number, the literal tail of the primary pattern must
follow. -/
def matchPrimaryTail : Option (List Char × List Char) → Option (List Char)
  | some (g, rest) => if beginsWith densityTail rest then some g else none
  | none => none

/-- Try the primary pattern
`population density of ([\d,]+(?:\.\d+)?) people per square mile`
at the start of `s`, returning the captured group. -/
def matchPrimaryAt (s : List Char) : Option (List Char) :=
  if beginsWith densityLit s then
    matchPrimaryTail (matchNumber (s.drop densityLit.length))
  else none

/-- `re.search` with the primary pattern: try every start position from the
left, returning the first capture. -/
def searchPrimary : List Char → Option (List Char)
  | [] => none
  | c :: cs =>
    match matchPrimaryAt (c :: cs) with
    | some g => some g
    | none => searchPrimary cs

/-- The character class `\s` of the fallback pattern (ASCII whitespace). -/
def isReSpace (c : Char) : Bool :=
  c = ' ' || c = '\t' || c = '\n' || c = '\r' || c = '\x0b' || c = '\x0c'

/-- The group `([\d,\.]+)` of the fallback pattern, read right after the
first `'>'` closing the `<td` tag. -/
def altCellGroup : List Char → Option (List Char)
  | [] => none
  | c :: r5 =>
    if c = '>' then
      let g := r5.takeWhile isAltNumChar
      if g = [] then none else some g
    else none

/-- Try the fallback pattern `Population\s+Density</td>\s*<td[^>]*>([\d,\.]+)`
at the start of `s`, returning the captured group. -/
def matchAltAt (s : List Char) : Option (List Char) :=
  if beginsWith ("Population".data) s then
    if (s.drop ("Population".data).length).takeWhile isReSpace = [] then none
    else
      if beginsWith ("Density</td>".data)
          ((s.drop ("Population".data).length).dropWhile isReSpace) then
        if beginsWith ("<td".data)
            ((((s.drop ("Population".data).length).dropWhile isReSpace).drop
              ("Density</td>".data).length).dropWhile isReSpace) then
          altCellGroup (((((((s.drop ("Population".data).length).dropWhile
            isReSpace).drop ("Density</td>".data).length).dropWhile
            isReSpace).drop ("<td".data).length)).dropWhile (fun c => c != '>'))
        else none
      else none
  else none

/-- `re.search` with the fallback pattern. -/
def searchAlt : List Char → Option (List Char)
  | [] => none
  | c :: cs =>
    match matchAltAt (c :: cs) with
    | some g => some g
    | none => searchAlt cs

/-- The extraction step of `get_population_density` (source lines 70–82):
the primary pattern first, the fallback pattern second, the raw captured
substring returned verbatim. -/
def extractFromHtml (html : List Char) : Option (List Char) :=
  match searchPrimary html with
  | some g => some g
  | none => searchAlt html

example :
    extractFromHtml ("The population density of 1,234.5 people per square mile here.".data)
      = some ("1,234.5".data) := by decide
example : extractFromHtml ("no density figure at all".data) = none := by decide
example :
    extractFromHtml ("<tr>Population  Density</td> <td class=x>4,016.5</td>".data)
      = some ("4,016.5".data) := by decide

/-! ## Character decoding (source lines 55–68)

Byte strings are `List Nat` with values below 256.  `utf8StepTail` decodes
one scalar value: given a leading byte and the bytes after it, it returns
how many continuation bytes it consumed and the decoded character, or
`none` after consuming the longest prefix that could still have started a
valid sequence (CPython's "maximal subpart" error handling). -/

/-- A UTF-8 continuation byte, `0x80`–`0xBF`. -/
def isContByte (b : Nat) : Bool := 0x80 ≤ b && b ≤ 0xBF

/-- Decode one UTF-8 sequence whose leading byte is `b` and whose remaining
input is `rest`: `(continuation bytes consumed, decoded character?)`. -/
def utf8StepTail (b : Nat) (rest : List Nat) : Nat × Option Char :=
  if b < 0x80 then (0, some (Char.ofNat b))
  else if b < 0xC2 then (0, none)
  else if b ≤ 0xDF then
    match rest with
    | b1 :: _ =>
      if isContByte b1 then (1, some (Char.ofNat ((b - 0xC0) * 0x40 + (b1 - 0x80))))
      else (0, none)
    | [] => (0, none)
  else if b ≤ 0xEF then
    let lo1 := if b = 0xE0 then 0xA0 else 0x80
    let hi1 := if b = 0xED then 0x9F else 0xBF
    match rest with
    | b1 :: rest1 =>
      if lo1 ≤ b1 && b1 ≤ hi1 then
        match rest1 with
        | b2 :: _ =>
          if isContByte b2 then
            (2, some (Char.ofNat ((b - 0xE0) * 0x1000 + (b1 - 0x80) * 0x40 + (b2 - 0x80))))
          else (1, none)
        | [] => (1, none)
      else (0, none)
    | [] => (0, none)
  else if b ≤ 0xF4 then
    let lo1 := if b = 0xF0 then 0x90 else 0x80
    let hi1 := if b = 0xF4 then 0x8F else 0xBF
    match rest with
    | b1 :: rest1 =>
      if lo1 ≤ b1 && b1 ≤ hi1 then
        match rest1 with
        | b2 :: rest2 =>
          if isContByte b2 then
            match rest2 with
            | b3 :: _ =>
              if isContByte b3 then
                (3, some (Char.ofNat ((b - 0xF0) * 0x40000 + (b1 - 0x80) * 0x1000
                    + (b2 - 0x80) * 0x40 + (b3 - 0x80))))
              else (2, none)
            | [] => (2, none)
          else (1, none)
        | [] => (1, none)
      else (0, none)
    | [] => (0, none)
  else (0, none)

/-- The Unicode replacement character U+FFFD. -/
def replacementChar : Char := Char.ofNat 0xFFFD

/-- Fuel-driven worker for `bytes.decode("utf-8", errors="replace")`; every
step consumes at least the leading byte, so `bs.length` fuel always suffices. -/
def utf8ReplaceAux : Nat → List Nat → List Char
  | 0, _ => []
  | _ + 1, [] => []
  | fuel + 1, b :: rest =>
    match utf8StepTail b rest with
    | (extra, some c) => c :: utf8ReplaceAux fuel (rest.drop extra)
    | (extra, none) => replacementChar :: utf8ReplaceAux fuel (rest.drop extra)

/-- `bytes.decode("utf-8", errors="replace")`: total, lossy UTF-8 decoding. -/
def utf8DecodeReplace (bs : List Nat) : List Char := utf8ReplaceAux bs.length bs

/-- Fuel-driven worker for strict UTF-8 decoding (`none` models
`UnicodeDecodeError`). -/
def utf8StrictAux : Nat → List Nat → Option (List Char)
  | 0, [] => some []
  | 0, _ :: _ => none
  | _ + 1, [] => some []
  | fuel + 1, b :: rest =>
    match utf8StepTail b rest with
    | (extra, some c) => (utf8StrictAux fuel (rest.drop extra)).map (c :: ·)
    | (_, none) => none

/-- `bytes.decode("utf-8")` with strict error handling. -/
def utf8DecodeStrict (bs : List Nat) : Option (List Char) := utf8StrictAux bs.length bs

/-- `bytes.decode("latin-1")` (identical to `iso-8859-1`): each byte is the
code point itself; never fails. -/
def latin1Decode (bs : List Nat) : List Char := bs.map Char.ofNat

/-- The `windows-1252` table: bytes `0x80`–`0x9F` map to their dedicated code
points, five of them are undefined, every other byte is its own code point. -/
def cp1252Map (b : Nat) : Option Nat :=
  if b < 0x80 ∨ 0x9F < b then some b
  else if b = 0x80 then some 0x20AC
  else if b = 0x82 then some 0x201A
  else if b = 0x83 then some 0x0192
  else if b = 0x84 then some 0x201E
  else if b = 0x85 then some 0x2026
  else if b = 0x86 then some 0x2020
  else if b = 0x87 then some 0x2021
  else if b = 0x88 then some 0x02C6
  else if b = 0x89 then some 0x2030
  else if b = 0x8A then some 0x0160
  else if b = 0x8B then some 0x2039
  else if b = 0x8C then some 0x0152
  else if b = 0x8E then some 0x017D
  else if b = 0x91 then some 0x2018
  else if b = 0x92 then some 0x2019
  else if b = 0x93 then some 0x201C
  else if b = 0x94 then some 0x201D
  else if b = 0x95 then some 0x2022
  else if b = 0x96 then some 0x2013
  else if b = 0x97 then some 0x2014
  else if b = 0x98 then some 0x02DC
  else if b = 0x99 then some 0x2122
  else if b = 0x9A then some 0x0161
  else if b = 0x9B then some 0x203A
  else if b = 0x9C then some 0x0153
  else if b = 0x9E then some 0x017E
  else if b = 0x9F then some 0x0178
  else none

/-- `bytes.decode("windows-1252", errors="replace")`. -/
def cp1252DecodeReplace (bs : List Nat) : List Char :=
  bs.map fun b =>
    match cp1252Map b with
    | some v => Char.ofNat v
    | none => replacementChar

/-- `bytes.decode("windows-1252")` with strict error handling. -/
def cp1252DecodeStrict (bs : List Nat) : Option (List Char) :=
  bs.mapM fun b => (cp1252Map b).map Char.ofNat

/-- The encodings the source tries, in order (source line 56). -/
inductive Enc where
  | utf8
  | latin1
  | windows1252
  | iso8859_1
deriving DecidableEq

/-- `encodings = ['utf-8', 'latin-1', 'windows-1252', 'iso-8859-1']`. -/
def encodingsList : List Enc := [Enc.utf8, Enc.latin1, Enc.windows1252, Enc.iso8859_1]

/-- Decoding with `errors="replace"`, per encoding. -/
def decodeWithReplace : Enc → List Nat → List Char
  | Enc.utf8, bs => utf8DecodeReplace bs
  | Enc.latin1, bs => latin1Decode bs
  | Enc.windows1252, bs => cp1252DecodeReplace bs
  | Enc.iso8859_1, bs => latin1Decode bs

/-- One iteration of the source's loop body (line 61): decode with
`errors="replace"` inside `try`.  Replacement-mode decoding never raises
`UnicodeDecodeError`, so the result is always `some`. -/
def tryDecodeReplace (e : Enc) (bs : List Nat) : Option (List Char) :=
  some (decodeWithReplace e bs)

/-- The source's decoding loop (lines 59–64): first encoding whose decode
does not raise. -/
def decodeLoop : List Enc → List Nat → Option (List Char)
  | [], _ => none
  | e :: es, bs =>
    match tryDecodeReplace e bs with
    | some h => some h
    | none => decodeLoop es bs

/-- The full decoding step of `get_population_density` (lines 55–68): run the
loop, and fall back to lossy UTF-8 if every encoding failed. -/
def decodeHtml (bs : List Nat) : List Char :=
  match decodeLoop encodingsList bs with
  | some h => h
  | none => utf8DecodeReplace bs

/-- Strict decoding per encoding, as the spec describes the loop: an
encoding is accepted only when it decodes without raising. -/
def decodeStrictEnc : Enc → List Nat → Option (List Char)
  | Enc.utf8, bs => utf8DecodeStrict bs
  | Enc.latin1, bs => some (latin1Decode bs)
  | Enc.windows1252, bs => cp1252DecodeStrict bs
  | Enc.iso8859_1, bs => some (latin1Decode bs)

/-- Modelled from the claim's words (for comparison with `decodeHtml`): try
the encodings strictly in order, accept the first that decodes without
raising, and fall back to lossy UTF-8 when all fail. -/
def claimDecodeLoop : List Enc → List Nat → Option (List Char)
  | [], _ => none
  | e :: es, bs =>
    match decodeStrictEnc e bs with
    | some h => some h
    | none => claimDecodeLoop es bs

/-- The decoder the claim describes, end to end. -/
def claimDecodeChain (bs : List Nat) : List Char :=
  match claimDecodeLoop encodingsList bs with
  | some h => h
  | none => utf8DecodeReplace bs

/-- Encode an ASCII string as its bytes. -/
def asciiBytes (s : String) : List Nat := s.data.map Char.toNat

example : decodeHtml [255] = [replacementChar] := by decide
example : claimDecodeChain [255] = [Char.ofNat 255] := by decide
example : decodeHtml (asciiBytes "abc") = "abc".data := by decide
example : utf8DecodeStrict [0xC3, 0xA9] = some [Char.ofNat 0xE9] := by decide

/-! ## Fetching (source lines 35–94)

The outcome of `urllib.request.urlopen` for a given URL is an oracle value:
a successful response's raw bytes, an `HTTPError` with its status code and
reason, a `URLError`, or any other exception.  `get_population_density`
consumes the oracle; its `except` arms are the error constructors. -/

/-- The possible outcomes of the HTTP request for one URL. -/
inductive Response where
  | success (body : List Nat)
  | httpError (code : Nat) (reason : List Char)
  | urlError (reason : List Char)
  | otherError (msg : List Char)
deriving DecidableEq

/-- The deterministic URL of source line 38. -/
def buildUrl (formatted_zip : List Char) : List Char :=
  "https://www.zip-codes.com/zip-code/".data ++ formatted_zip
    ++ "/zip-code-".data ++ formatted_zip ++ ".asp".data

/-- `get_population_density` (source lines 35–94): format the zip code,
request the page, decode the bytes and extract the density text; every
error arm returns `None`. -/
def get_population_density (net : List Char → Response) (zip_code : List Char) :
    Option (List Char) :=
  let formatted_zip := format_zipcode zip_code
  match net (buildUrl formatted_zip) with
  | Response.success html_bytes => extractFromHtml (decodeHtml html_bytes)
  | Response.httpError _ _ => none
  | Response.urlError _ => none
  | Response.otherError _ => none

/-- The `st.warning` text the error arms of `get_population_density` emit
(source lines 83–94); `none` on success. -/
def gpd_warning (formatted_zip : List Char) : Response → Option (List Char)
  | Response.success _ => none
  | Response.httpError code reason =>
    if code = 404 then
      some ("Zip code ".data ++ formatted_zip ++ " not found (404 error)".data)
    else
      some ("HTTP Error for zip code ".data ++ formatted_zip ++ ": ".data
        ++ (Nat.repr code).data ++ " ".data ++ reason)
  | Response.urlError reason =>
    some ("URL Error for zip code ".data ++ formatted_zip ++ ": ".data ++ reason)
  | Response.otherError msg =>
    some ("Error for zip code ".data ++ formatted_zip ++ ": ".data ++ msg)

/-! ## Batch processing (source lines 140–230)

A CSV row is its zip-code cell plus the untouched other cells.  The batch
step formats the whole zipcode column (line 153), then walks the rows in
order, writing each row's density cell (lines 196–212). -/

/-- One input row: the `zipcode` cell and every other cell. -/
structure Row where
  zipcode : List Char
  other : List (List Char)
deriving DecidableEq

/-- One output row: the dataframe after the loop has filled
`Population Density` for this row. -/
structure OutRow where
  zipcode : List Char
  other : List (List Char)
  density : List Char
deriving DecidableEq

/-- `df['zipcode'] = df['zipcode'].apply(format_zipcode)` (source line 153). -/
def formatRows (rows : List Row) : List Row :=
  rows.map fun r => { r with zipcode := format_zipcode r.zipcode }

/-- The density cell written for one (already formatted) zip code
(source lines 203–209): the fetched value, or the literal `"Not Found"`. -/
def densityCell (net : List Char → Response) (z : List Char) : List Char :=
  match get_population_density net z with
  | some density => density
  | none => "Not Found".data

/-- The row loop of source lines 196–212. -/
def processLoop (net : List Char → Response) : List Row → List OutRow
  | [] => []
  | r :: rs =>
    { zipcode := r.zipcode, other := r.other, density := densityCell net r.zipcode }
      :: processLoop net rs

/-- The batch pipeline of `process_csv_file` on the parsed rows: format the
zipcode column, then fill the density column row by row. -/
def process_csv_file (net : List Char → Response) (rows : List Row) : List OutRow :=
  processLoop net (formatRows rows)

/-- The terminal record the batch produces for one original row. -/
def rowOutcome (net : List Char → Response) (r : Row) : OutRow :=
  { zipcode := format_zipcode r.zipcode
    other := r.other
    density := densityCell net (format_zipcode r.zipcode) }

/-- Python `str.lower()`, restricted to the ASCII letters; source line 146
applies it to every column header of the uploaded table. -/
def pyLower (s : List Char) : List Char :=
  s.map fun c => if 'A' ≤ c ∧ c ≤ 'Z' then Char.ofNat (c.toNat + 32) else c

/-- The uploaded table: the header of the zip-code column as the user wrote
it (matched case-insensitively by the source), the headers of the other
columns in order, and the rows. -/
structure Table where
  zipcodeHeader : List Char
  otherHeaders : List (List Char)
  rows : List Row
deriving DecidableEq

/-- The produced table: the (renamed) headers, the header of the appended
density column, and the filled rows. -/
structure OutTable where
  zipcodeHeader : List Char
  otherHeaders : List (List Char)
  densityHeader : List Char
  rows : List OutRow
deriving DecidableEq

/-- `process_csv_file` at table level (source lines 141–230): line 146
lowercases every column header, line 148 then requires a column named
`zipcode` — rendered here as the designated zip-code column's lowered
header being exactly `"zipcode"`, with `none` for the early return when it
is not — line 153 formats the zip-code column, line 189 appends the
`Population Density` column, and the loop of lines 196–212 fills it. -/
def process_csv_table (net : List Char → Response) (t : Table) : Option OutTable :=
  if pyLower t.zipcodeHeader = "zipcode".data then
    some { zipcodeHeader := pyLower t.zipcodeHeader
           otherHeaders := t.otherHeaders.map pyLower
           densityHeader := "Population Density".data
           rows := process_csv_file net t.rows }
  else none

/-! ## Zip-code validation (source line 263)

`re.match(r'^\d{4,5}(-\d{4})?$', zip_code.strip())`: after `\d{4,5}` takes
its maximal digit run, any shorter run leaves a digit in front of the rest,
which can match neither `-` nor the end, so a maximal-munch scan is exact. -/

/-- Full match of `^\d{4,5}(-\d{4})?$`. -/
def zipPatternCore (s : List Char) : Bool :=
  let d := s.takeWhile Char.isDigit
  (4 ≤ d.length && d.length ≤ 5) &&
    match s.dropWhile Char.isDigit with
    | [] => true
    | c :: r => c == '-' && (r.length == 4 && r.all Char.isDigit)

/-- The single-search validation of source line 263: strip, then match
`^\d{4,5}(-\d{4})?$`. -/
def isValid (zip_code : List Char) : Bool := zipPatternCore (pyStrip zip_code)

/-- Modelled from the claim's words (for comparison with `isValid`): full
match of `^\d{5}(-\d{4})?$`. -/
def specZipPattern (s : List Char) : Bool :=
  let d := s.takeWhile Char.isDigit
  (d.length == 5) &&
    match s.dropWhile Char.isDigit with
    | [] => true
    | c :: r => c == '-' && (r.length == 4 && r.all Char.isDigit)

example : isValid ("01234".data) = true := by decide
example : isValid ("1234".data) = true := by decide
example : isValid ("01234-5678".data) = true := by decide
example : isValid ("123".data) = false := by decide
example : isValid ("123456".data) = false := by decide
example : isValid ("01234-567".data) = false := by decide
example : specZipPattern ("1234".data) = false := by decide
example : specZipPattern ("01234-5678".data) = true := by decide

/-! ## Helper lemmas -/

theorem head?_of_mem_head {α : Type} {l : List α} {a : α} (h : l.head? = some a) : a ∈ l := by
  cases l with
  | nil => cases h
  | cons b t =>
    cases h
    exact List.mem_cons_self _ _

theorem mem_of_getLast?_eq {α : Type} {l : List α} {a : α} (h : l.getLast? = some a) :
    a ∈ l := by
  rw [← List.head?_reverse] at h
  exact List.mem_reverse.mp (head?_of_mem_head h)

theorem dropWhile_eq_self_of_head {p : Char → Bool} {s : List Char}
    (h : ∀ a, s.head? = some a → p a = false) : s.dropWhile p = s := by
  cases s with
  | nil => rfl
  | cons c cs => simp [List.dropWhile, h c rfl]

theorem head_dropWhile_false {p : Char → Bool} :
    ∀ (s : List Char) (a : Char), (s.dropWhile p).head? = some a → p a = false := by
  intro s
  induction s with
  | nil => intro a h; cases h
  | cons c cs ih =>
    intro a h
    by_cases hc : p c
    · rw [List.dropWhile_cons_of_pos hc] at h
      exact ih a h
    · rw [List.dropWhile_cons_of_neg hc] at h
      cases h
      exact Bool.eq_false_iff.mpr hc

theorem rstrip_append (s : List Char) : ∃ u, s = rstrip s ++ u := by
  refine ⟨(s.reverse.takeWhile isPySpace).reverse, ?_⟩
  unfold rstrip
  rw [← List.reverse_append, List.takeWhile_append_dropWhile, List.reverse_reverse]

theorem rstrip_eq_self {s : List Char}
    (h : ∀ a, s.getLast? = some a → isPySpace a = false) : rstrip s = s := by
  unfold rstrip
  rw [dropWhile_eq_self_of_head, List.reverse_reverse]
  intro a ha
  exact h a (by rw [← List.head?_reverse]; exact ha)

theorem pyStrip_eq_self {s : List Char}
    (h1 : ∀ a, s.head? = some a → isPySpace a = false)
    (h2 : ∀ a, s.getLast? = some a → isPySpace a = false) : pyStrip s = s := by
  unfold pyStrip
  rw [dropWhile_eq_self_of_head h1, rstrip_eq_self h2]

theorem pyStrip_head_false (s : List Char) :
    ∀ a, (pyStrip s).head? = some a → isPySpace a = false := by
  intro a ha
  apply head_dropWhile_false s a
  obtain ⟨u, hu⟩ := rstrip_append (s.dropWhile isPySpace)
  unfold pyStrip at ha
  cases hr : rstrip (s.dropWhile isPySpace) with
  | nil => rw [hr] at ha; cases ha
  | cons b t =>
    rw [hr] at ha hu
    cases ha
    rw [hu]
    rfl

theorem pyStrip_getLast_false (s : List Char) :
    ∀ a, (pyStrip s).getLast? = some a → isPySpace a = false := by
  intro a ha
  unfold pyStrip rstrip at ha
  rw [← List.head?_reverse, List.reverse_reverse] at ha
  exact head_dropWhile_false _ a ha

theorem pyStrip_idem (s : List Char) : pyStrip (pyStrip s) = pyStrip s :=
  pyStrip_eq_self (pyStrip_head_false s) (pyStrip_getLast_false s)

theorem rstrip_sublist (x : List Char) : List.Sublist (rstrip x) x := by
  obtain ⟨u, hu⟩ := rstrip_append x
  conv_rhs => rw [hu]
  exact List.sublist_append_left _ _

theorem pyStrip_sublist (s : List Char) : List.Sublist (pyStrip s) s :=
  (rstrip_sublist _).trans (List.dropWhile_sublist _)

theorem pyZfill_length_ge (w : Nat) (s : List Char) : w ≤ (pyZfill w s).length := by
  unfold pyZfill
  by_cases h : w ≤ s.length
  · simp [h]
  · simp only [if_neg h]
    cases s with
    | nil => simp
    | cons c cs =>
      by_cases hc : c = '+' ∨ c = '-' <;>
        simp [hc, List.length_replicate, List.length_append] <;> omega

theorem pyZfill_eq_self {w : Nat} {s : List Char} (h : w ≤ s.length) : pyZfill w s = s := by
  unfold pyZfill
  simp [h]

theorem pyZfill_idem (s : List Char) : pyZfill 5 (pyZfill 5 s) = pyZfill 5 s :=
  pyZfill_eq_self (pyZfill_length_ge 5 s)

theorem pyZfill_not_mem {s : List Char} (h : ('-' : Char) ∉ s) :
    ('-' : Char) ∉ pyZfill 5 s := by
  unfold pyZfill
  by_cases hl : 5 ≤ s.length
  · simpa [hl]
  · simp only [if_neg hl]
    cases s with
    | nil =>
      intro hm
      have := List.eq_of_mem_replicate hm
      cases this
    | cons c cs =>
      by_cases hc : c = '+' ∨ c = '-'
      · simp only [if_pos hc]
        intro hm
        rcases List.mem_cons.mp hm with h1 | h1
        · exact h (h1 ▸ List.mem_cons_self _ _)
        · rcases List.mem_append.mp h1 with h2 | h2
          · cases List.eq_of_mem_replicate h2
          · exact h (List.mem_cons_of_mem _ h2)
      · simp only [if_neg hc]
        intro hm
        rcases List.mem_append.mp hm with h2 | h2
        · cases List.eq_of_mem_replicate h2
        · exact h h2

theorem pyZfill_head_false {s : List Char}
    (h : ∀ a, s.head? = some a → isPySpace a = false) :
    ∀ a, (pyZfill 5 s).head? = some a → isPySpace a = false := by
  unfold pyZfill
  by_cases hl : 5 ≤ s.length
  · simpa [hl] using h
  · simp only [if_neg hl]
    cases s with
    | nil =>
      intro a ha
      cases ha
      decide
    | cons c cs =>
      by_cases hc : c = '+' ∨ c = '-'
      · simp only [if_pos hc]
        intro a ha
        cases ha
        rcases hc with rfl | rfl <;> decide
      · simp only [if_neg hc]
        intro a ha
        have hrep : 0 < 5 - (c :: cs).length := by
          simp only [List.length_cons] at hl ⊢
          omega
        cases hr : 5 - (c :: cs).length with
        | zero => omega
        | succ n =>
          rw [hr] at ha
          cases ha
          decide

theorem splitOnHyphen_no_hyphen {s : List Char} (h : ('-' : Char) ∉ s) :
    splitOnHyphen s = [s] := by
  induction s with
  | nil => rfl
  | cons c cs ih =>
    have hc : ¬ c = '-' := fun hcc => h (hcc ▸ List.mem_cons_self _ _)
    have hcs : ('-' : Char) ∉ cs := fun hm => h (List.mem_cons_of_mem _ hm)
    simp [splitOnHyphen, hc, ih hcs]

theorem splitOnHyphen_append {p0 : List Char} (p1 : List Char) (h : ('-' : Char) ∉ p0) :
    splitOnHyphen (p0 ++ '-' :: p1) = p0 :: splitOnHyphen p1 := by
  induction p0 with
  | nil => simp [splitOnHyphen]
  | cons c cs ih =>
    have hc : ¬ c = '-' := fun hcc => h (hcc ▸ List.mem_cons_self _ _)
    have hcs : ('-' : Char) ∉ cs := fun hm => h (List.mem_cons_of_mem _ hm)
    simp only [List.cons_append, splitOnHyphen, hc, if_false]
    rw [show cs.append ('-' :: p1) = cs ++ '-' :: p1 from rfl, ih hcs]

theorem exists_hyphen_split {t : List Char} (hmem : ('-' : Char) ∈ t) :
    ∃ p0 p1, t = p0 ++ '-' :: p1 ∧ ('-' : Char) ∉ p0 := by
  refine ⟨t.takeWhile (fun c => c != '-'), ?_, ?_, ?_⟩
  · exact (t.dropWhile (fun c => c != '-')).tail
  · have hrest : t.dropWhile (fun c => c != '-') ≠ [] := by
      intro hnil
      have := List.takeWhile_append_dropWhile (fun c => c != '-') t
      rw [hnil, List.append_nil] at this
      rw [← this] at hmem
      have := List.mem_takeWhile_imp hmem
      simp at this
    cases hd : t.dropWhile (fun c => c != '-') with
    | nil => exact absurd hd hrest
    | cons a r =>
      have ha : (a != '-') = false := head_dropWhile_false t a (by rw [hd]; rfl)
      have ha2 : a = '-' := by simpa using ha
      conv_lhs => rw [← List.takeWhile_append_dropWhile (fun c => c != '-') t]
      rw [hd, ha2]
      rfl
  · intro hm
    have := List.mem_takeWhile_imp hm
    simp at this

theorem isDigit_not_space {c : Char} (hc : c.isDigit = true) : isPySpace c = false := by
  cases hs : isPySpace c
  · rfl
  · exfalso
    simp only [isPySpace, Bool.or_eq_true, decide_eq_true_eq] at hs
    rcases hs with ((((rfl | rfl) | rfl) | rfl) | rfl) | rfl <;> exact absurd hc (by decide)

theorem isDigit_ne_hyphen {c : Char} (hc : c.isDigit = true) : ¬ c = '-' := by
  intro h
  subst h
  exact absurd hc (by decide)

theorem isDigit_ne_sign {c : Char} (hc : c.isDigit = true) : ¬ (c = '+' ∨ c = '-') := by
  rintro (rfl | rfl) <;> exact absurd hc (by decide)

theorem digit_zfill_four {d : List Char} (hd : ∀ c ∈ d, c.isDigit = true)
    (hl : d.length = 4) : pyZfill 5 d = '0' :: d := by
  cases d with
  | nil => cases hl
  | cons c cs =>
    have hc : c.isDigit = true := hd c (List.mem_cons_self _ _)
    have h4 : cs.length = 3 := by simpa using hl
    simp [pyZfill, isDigit_ne_sign hc, h4, List.replicate]

theorem pyStrip_all_eq_self {s : List Char} (h : ∀ c ∈ s, isPySpace c = false) :
    pyStrip s = s :=
  pyStrip_eq_self (fun a ha => h a (head?_of_mem_head ha))
    (fun a ha => h a (mem_of_getLast?_eq ha))

theorem format_of_no_hyphen {s : List Char} (h : ('-' : Char) ∉ pyStrip s) :
    format_zipcode s =
      (if ((pyStrip s).filter Char.isDigit).length = 4 then
        pyZfill 5 ((pyStrip s).filter Char.isDigit)
      else if ((pyStrip s).filter Char.isDigit).length = 5 then
        (pyStrip s).filter Char.isDigit
      else pyStrip s) := by
  unfold format_zipcode
  rw [if_neg h]

theorem format_of_hyphen {s p0 p1 : List Char} (ht : pyStrip s = p0 ++ '-' :: p1)
    (h0 : ('-' : Char) ∉ p0) (h1 : ('-' : Char) ∉ p1) :
    format_zipcode s = pyZfill 5 p0 ++ '-' :: p1 := by
  unfold format_zipcode
  rw [ht, if_pos (by simp), splitOnHyphen_append p1 h0, splitOnHyphen_no_hyphen h1]

theorem format_idem_aux {s : List Char} (hcount : s.count '-' ≤ 1) :
    format_zipcode (format_zipcode s) = format_zipcode s := by
  by_cases hm : ('-' : Char) ∈ pyStrip s
  · obtain ⟨p0, p1, ht, h0⟩ := exists_hyphen_split hm
    have hc1 : (pyStrip s).count '-' ≤ 1 :=
      le_trans ((pyStrip_sublist s).count_le '-') hcount
    have h1 : ('-' : Char) ∉ p1 := by
      rw [ht, List.count_append] at hc1
      have hcc : ('-' :: p1).count '-' = p1.count '-' + 1 := List.count_cons_self _ _
      rw [hcc] at hc1
      exact List.count_eq_zero.mp (by omega)
    have hfmt : format_zipcode s = pyZfill 5 p0 ++ '-' :: p1 := format_of_hyphen ht h0 h1
    have hp0head : ∀ a, p0.head? = some a → isPySpace a = false := by
      intro a ha
      apply pyStrip_head_false s
      rw [ht]
      cases p0 with
      | nil => cases ha
      | cons b bs => cases ha; rfl
    have hzlen : 5 ≤ (pyZfill 5 p0).length := pyZfill_length_ge 5 p0
    have hznil : pyZfill 5 p0 ≠ [] := by
      intro h
      rw [h] at hzlen
      simp at hzlen
    have hohead : ∀ a, (pyZfill 5 p0 ++ '-' :: p1).head? = some a → isPySpace a = false := by
      intro a ha
      apply pyZfill_head_false hp0head a
      cases hz : pyZfill 5 p0 with
      | nil => exact absurd hz hznil
      | cons b bs =>
        rw [hz] at ha
        cases ha
        rfl
    have holast : ∀ a, (pyZfill 5 p0 ++ '-' :: p1).getLast? = some a →
        isPySpace a = false := by
      intro a ha
      cases p1 with
      | nil =>
        rw [List.getLast?_concat] at ha
        injection ha with ha2
        subst ha2
        decide
      | cons q qs =>
        apply pyStrip_getLast_false s
        rw [ht]
        rw [List.getLast?_append_of_ne_nil _ (by simp)] at ha
        rw [List.getLast?_append_of_ne_nil _ (by simp)]
        exact ha
    have hps : pyStrip (pyZfill 5 p0 ++ '-' :: p1) = pyZfill 5 p0 ++ '-' :: p1 :=
      pyStrip_eq_self hohead holast
    have hzno : ('-' : Char) ∉ pyZfill 5 p0 := pyZfill_not_mem h0
    rw [hfmt, format_of_hyphen (s := pyZfill 5 p0 ++ '-' :: p1) (by rw [hps]) hzno h1,
      pyZfill_idem]
  · rw [format_of_no_hyphen hm]
    by_cases h4 : ((pyStrip s).filter Char.isDigit).length = 4
    · rw [if_pos h4]
      have hdig : ∀ c ∈ (pyStrip s).filter Char.isDigit, c.isDigit = true :=
        fun c hc => List.of_mem_filter hc
      rw [digit_zfill_four hdig h4]
      set d := (pyStrip s).filter Char.isDigit with hd
      have hall : ∀ c ∈ ('0' :: d), c.isDigit = true := by
        intro c hc
        rcases List.mem_cons.mp hc with rfl | hc2
        · decide
        · exact hdig c hc2
      have hstrip : pyStrip ('0' :: d) = '0' :: d :=
        pyStrip_all_eq_self (fun c hc => isDigit_not_space (hall c hc))
      have hnoh : ('-' : Char) ∉ ('0' :: d) := by
        intro hmem
        exact isDigit_ne_hyphen (hall _ hmem) rfl
      rw [format_of_no_hyphen (by rw [hstrip]; exact hnoh), hstrip,
        List.filter_eq_self.mpr hall]
      rw [if_neg (by simp [h4]), if_pos (by simp [h4])]
    · rw [if_neg h4]
      by_cases h5 : ((pyStrip s).filter Char.isDigit).length = 5
      · rw [if_pos h5]
        set d := (pyStrip s).filter Char.isDigit with hd
        have hdig : ∀ c ∈ d, c.isDigit = true := fun c hc => List.of_mem_filter hc
        have hstrip : pyStrip d = d :=
          pyStrip_all_eq_self (fun c hc => isDigit_not_space (hdig c hc))
        have hnoh : ('-' : Char) ∉ d := fun hmem => isDigit_ne_hyphen (hdig _ hmem) rfl
        rw [format_of_no_hyphen (by rw [hstrip]; exact hnoh), hstrip,
          List.filter_eq_self.mpr hdig, if_neg (by simp [h5]), if_pos h5]
      · rw [if_neg h5]
        rw [format_of_no_hyphen (by rw [pyStrip_idem]; exact hm), pyStrip_idem,
          if_neg h4, if_neg h5]

theorem matchNumber_charset {s g r : List Char} (h : matchNumber s = some (g, r)) :
    g ≠ [] ∧ ∀ c ∈ g, isAltNumChar c = true := by
  have hnum : ∀ c ∈ s.takeWhile isNumChar, isAltNumChar c = true := by
    intro c hc
    have := List.mem_takeWhile_imp hc
    simp only [isNumChar, Bool.or_eq_true] at this
    simp only [isAltNumChar, Bool.or_eq_true]
    rcases this with h1 | h1
    · exact Or.inl (Or.inl h1)
    · exact Or.inl (Or.inr h1)
  unfold matchNumber at h
  by_cases hrun : s.takeWhile isNumChar = []
  · simp [hrun] at h
  · rw [if_neg hrun] at h
    cases hdrop : s.dropWhile isNumChar with
    | nil =>
      rw [hdrop] at h
      simp only [matchNumberTail] at h
      injection h with h2
      injection h2 with h3 h4
      subst h3
      exact ⟨hrun, hnum⟩
    | cons c2 r2 =>
      rw [hdrop] at h
      simp only [matchNumberTail] at h
      by_cases hdot : c2 = '.'
      · rw [if_pos hdot] at h
        by_cases hfrac : r2.takeWhile Char.isDigit = []
        · simp only [hfrac, if_pos rfl] at h
          injection h with h2
          injection h2 with h3 h4
          subst h3
          exact ⟨hrun, hnum⟩
        · simp only [if_neg hfrac] at h
          injection h with h2
          injection h2 with h3 h4
          subst h3
          constructor
          · intro hx
            exact hrun (List.append_eq_nil.mp hx).1
          · intro c hc
            rcases List.mem_append.mp hc with h1 | h1
            · exact hnum c h1
            · rcases List.mem_cons.mp h1 with rfl | h2
              · simp [isAltNumChar, hdot]
              · have := List.mem_takeWhile_imp h2
                simp [isAltNumChar, this]
      · rw [if_neg hdot] at h
        injection h with h2
        injection h2 with h3 h4
        subst h3
        exact ⟨hrun, hnum⟩

theorem matchPrimaryAt_charset {s g : List Char} (h : matchPrimaryAt s = some g) :
    g ≠ [] ∧ ∀ c ∈ g, isAltNumChar c = true := by
  unfold matchPrimaryAt at h
  by_cases hb : beginsWith densityLit s
  · rw [if_pos hb] at h
    cases hmn : matchNumber (s.drop densityLit.length) with
    | none => rw [hmn] at h; cases h
    | some gr =>
      rw [hmn] at h
      obtain ⟨g2, r2⟩ := gr
      simp only [matchPrimaryTail] at h
      by_cases ht : beginsWith densityTail r2
      · rw [if_pos ht] at h
        injection h with h2
        subst h2
        exact matchNumber_charset hmn
      · rw [if_neg ht] at h
        cases h
  · rw [if_neg hb] at h
    cases h

theorem searchPrimary_charset :
    ∀ {s g : List Char}, searchPrimary s = some g →
      g ≠ [] ∧ ∀ c ∈ g, isAltNumChar c = true := by
  intro s
  induction s with
  | nil => intro g h; cases h
  | cons c cs ih =>
    intro g h
    unfold searchPrimary at h
    cases hm : matchPrimaryAt (c :: cs) with
    | some g2 =>
      rw [hm] at h
      injection h with h2
      subst h2
      exact matchPrimaryAt_charset hm
    | none =>
      rw [hm] at h
      exact ih h

theorem matchAltAt_charset {s g : List Char} (h : matchAltAt s = some g) :
    g ≠ [] ∧ ∀ c ∈ g, isAltNumChar c = true := by
  unfold matchAltAt at h
  by_cases h1 : beginsWith ("Population".data) s
  · rw [if_pos h1] at h
    by_cases h2 : (s.drop ("Population".data).length).takeWhile isReSpace = []
    · rw [if_pos h2] at h
      cases h
    · rw [if_neg h2] at h
      by_cases h3 : beginsWith ("Density</td>".data)
          ((s.drop ("Population".data).length).dropWhile isReSpace)
      · rw [if_pos h3] at h
        by_cases h4 : beginsWith ("<td".data)
            ((((s.drop ("Population".data).length).dropWhile isReSpace).drop
              ("Density</td>".data).length).dropWhile isReSpace)
        · rw [if_pos h4] at h
          cases hdw : ((((((s.drop ("Population".data).length).dropWhile
              isReSpace).drop ("Density</td>".data).length).dropWhile
              isReSpace).drop ("<td".data).length).dropWhile (fun c => c != '>')) with
          | nil =>
            rw [hdw] at h
            simp only [altCellGroup] at h
            cases h
          | cons c r5 =>
            rw [hdw] at h
            simp only [altCellGroup] at h
            by_cases hgt : c = '>'
            · rw [if_pos hgt] at h
              by_cases hg : r5.takeWhile isAltNumChar = []
              · rw [if_pos hg] at h
                cases h
              · rw [if_neg hg] at h
                injection h with h2
                subst h2
                exact ⟨hg, fun c2 hc2 => List.mem_takeWhile_imp hc2⟩
            · rw [if_neg hgt] at h
              cases h
        · rw [if_neg h4] at h
          cases h
      · rw [if_neg h3] at h
        cases h
  · rw [if_neg h1] at h
    cases h

theorem searchAlt_charset :
    ∀ {s g : List Char}, searchAlt s = some g →
      g ≠ [] ∧ ∀ c ∈ g, isAltNumChar c = true := by
  intro s
  induction s with
  | nil => intro g h; cases h
  | cons c cs ih =>
    intro g h
    unfold searchAlt at h
    cases hm : matchAltAt (c :: cs) with
    | some g2 =>
      rw [hm] at h
      injection h with h2
      subst h2
      exact matchAltAt_charset hm
    | none =>
      rw [hm] at h
      exact ih h

theorem takeWhile_dropWhile_append {p : Char → Bool} {d e : List Char}
    (hd : ∀ c ∈ d, p c = true)
    (he : ∀ a, e.head? = some a → p a = false) :
    (d ++ e).takeWhile p = d ∧ (d ++ e).dropWhile p = e := by
  induction d with
  | nil =>
    simp only [List.nil_append]
    constructor
    · cases e with
      | nil => rfl
      | cons a t => rw [List.takeWhile_cons_of_neg (by simp [he a rfl])]
    · exact dropWhile_eq_self_of_head he
  | cons c cs ih =>
    have hc : p c = true := hd c (List.mem_cons_self _ _)
    have ih2 := ih (fun x hx => hd x (List.mem_cons_of_mem _ hx))
    constructor
    · rw [List.cons_append, List.takeWhile_cons_of_pos hc, ih2.1]
    · rw [List.cons_append, List.dropWhile_cons_of_pos hc, ih2.2]

theorem extractFromHtml_charset {html g : List Char} (h : extractFromHtml html = some g) :
    g ≠ [] ∧ ∀ c ∈ g, isAltNumChar c = true := by
  unfold extractFromHtml at h
  cases hp : searchPrimary html with
  | some g2 =>
    rw [hp] at h
    injection h with h2
    subst h2
    exact searchPrimary_charset hp
  | none =>
    rw [hp] at h
    exact searchAlt_charset h

theorem get_population_density_charset {net : List Char → Response} {z g : List Char}
    (h : get_population_density net z = some g) :
    g ≠ [] ∧ ∀ c ∈ g, isAltNumChar c = true := by
  simp only [get_population_density] at h
  cases hr : net (buildUrl (format_zipcode z)) with
  | success body =>
    rw [hr] at h
    exact extractFromHtml_charset h
  | httpError code reason =>
    rw [hr] at h
    cases h
  | urlError reason =>
    rw [hr] at h
    cases h
  | otherError msg =>
    rw [hr] at h
    cases h

theorem densityCell_cases (net : List Char → Response) (z : List Char) :
    (∃ g, get_population_density net z = some g ∧ densityCell net z = g) ∨
    (get_population_density net z = none ∧ densityCell net z = "Not Found".data) := by
  cases h : get_population_density net z with
  | some g =>
    left
    refine ⟨g, rfl, ?_⟩
    unfold densityCell
    rw [h]
  | none =>
    right
    refine ⟨rfl, ?_⟩
    unfold densityCell
    rw [h]

theorem densityCell_ne_nil (net : List Char → Response) (z : List Char) :
    densityCell net z ≠ [] := by
  rcases densityCell_cases net z with ⟨g, hg, hc⟩ | ⟨hg, hc⟩
  · rw [hc]
    exact (get_population_density_charset hg).1
  · rw [hc]
    decide

theorem processLoop_eq_map (net : List Char → Response) (l : List Row) :
    processLoop net l = l.map (fun r =>
      OutRow.mk r.zipcode r.other (densityCell net r.zipcode)) := by
  induction l with
  | nil => rfl
  | cons r rs ih =>
    simp only [processLoop, List.map_cons, ih]

theorem process_csv_eq_map (net : List Char → Response) (rows : List Row) :
    process_csv_file net rows = rows.map (rowOutcome net) := by
  unfold process_csv_file formatRows
  rw [processLoop_eq_map, List.map_map]
  rfl

/-! ## Claim theorems -/

/-- A sample page fragment containing the primary phrase. -/
def primarySample : List Char :=
  "The population density of 1,234.5 people per square mile according to the 2020 census.".data

/-- C1 (counterexample): on the spec's own example text the code returns the
captured substring `"1,234.5"` with the thousands separator still in it; the
separator is not stripped and the text is not the decimal string `"1234.5"`,
so extraction does not yield the parsed number 1234.5. -/
theorem extract_keeps_separator :
    extractFromHtml primarySample = some ("1,234.5".data) ∧
    (',' : Char) ∈ "1,234.5".data ∧ "1,234.5".data ≠ "1234.5".data :=
  ⟨by decide, by decide, by decide⟩

/-- C1 (amended): extraction applies the primary pattern
`population density of ([\d,]+(?:\.\d+)?) people per square mile` and, on a
match, returns the captured substring verbatim — separators are kept and no
numeric parsing happens; on the example text the result is the string
`"1,234.5"`. -/
theorem extract_returns_raw_capture :
    extractFromHtml primarySample = some ("1,234.5".data) ∧
    (∀ t g : List Char, searchPrimary t = some g → extractFromHtml t = some g) := by
  refine ⟨by decide, ?_⟩
  intro t g h
  unfold extractFromHtml
  rw [h]

/-- C2 (counterexample): `"12a34"` is a non-numeric shape, yet normalization
does not return it unchanged — the non-digits are removed first and the
4-digit remainder is zero-padded, giving `"01234"`. -/
theorem format_zipcode_changes_nonnumeric :
    format_zipcode ("12a34".data) = "01234".data ∧ "12a34".data ≠ "01234".data :=
  ⟨by decide, by decide⟩

/-- C2 (amended): normalization strips surrounding whitespace; for
non-hyphenated input it first removes every non-digit character, pads a
4-digit remainder with one `'0'` and passes a 5-digit remainder through, and
only when the digit count is neither 4 nor 5 is the (stripped) input
returned unchanged; the three examples of the claim hold. -/
theorem format_zipcode_characterization :
    (∀ s : List Char, ('-' : Char) ∉ pyStrip s →
        ((pyStrip s).filter Char.isDigit).length ≠ 4 →
        ((pyStrip s).filter Char.isDigit).length ≠ 5 →
        format_zipcode s = pyStrip s) ∧
    format_zipcode ("1234".data) = "01234".data ∧
    format_zipcode ("90210".data) = "90210".data ∧
    format_zipcode ("1234-5678".data) = "01234-5678".data := by
  refine ⟨?_, by decide, by decide, by decide⟩
  intro s h hne4 hne5
  rw [format_of_no_hyphen h, if_neg hne4, if_neg hne5]

/-- C2 (witness): the general clause of the amended claim at the concrete
input `"abc"`, whose hypotheses hold by computation. -/
theorem format_zipcode_characterization_witness :
    format_zipcode ("abc".data) = pyStrip ("abc".data) :=
  format_zipcode_characterization.1 ("abc".data) (by decide) (by decide) (by decide)

/-- C3 (counterexample): the code's validation (source line 263) accepts the
4-digit code `"1234"`, while the claimed pattern `^\d{5}(-\d{4})?$` rejects
it, so validation is not equivalent to that pattern. -/
theorem isValid_accepts_four_digits :
    isValid ("1234".data) = true ∧ specZipPattern ("1234".data) = false :=
  ⟨by decide, by decide⟩

/-- C3 (amended): validation strips the input and then accepts exactly the
strings matching `^\d{4,5}(-\d{4})?$` — a run of 4 or 5 digits, optionally
followed by a hyphen and exactly 4 digits; so `isValid "01234"`,
`isValid "1234"` and `isValid "01234-5678"` are all true. -/
theorem isValid_characterization :
    (∀ s : List Char, isValid s = true ↔
      ∃ d e, pyStrip s = d ++ e ∧ (∀ c ∈ d, c.isDigit = true) ∧
        (d.length = 4 ∨ d.length = 5) ∧
        (e = [] ∨ ∃ f, e = '-' :: f ∧ (∀ c ∈ f, c.isDigit = true) ∧ f.length = 4)) ∧
    isValid ("01234".data) = true ∧ isValid ("1234".data) = true ∧
    isValid ("01234-5678".data) = true := by
  refine ⟨?_, by decide, by decide, by decide⟩
  intro s
  constructor
  · intro h
    simp only [isValid, zipPatternCore, Bool.and_eq_true] at h
    obtain ⟨hlen, hrest⟩ := h
    refine ⟨(pyStrip s).takeWhile Char.isDigit, (pyStrip s).dropWhile Char.isDigit,
      (List.takeWhile_append_dropWhile Char.isDigit (pyStrip s)).symm,
      fun c hc => List.mem_takeWhile_imp hc, ?_, ?_⟩
    · simp only [Bool.and_eq_true, decide_eq_true_eq] at hlen
      omega
    · cases hd : (pyStrip s).dropWhile Char.isDigit with
      | nil => exact Or.inl rfl
      | cons c r =>
        rw [hd] at hrest
        simp only [Bool.and_eq_true, beq_iff_eq] at hrest
        obtain ⟨hc, hr4, hall⟩ := hrest
        exact Or.inr ⟨r, by rw [hc], List.all_eq_true.mp hall, hr4⟩
  · rintro ⟨d, e, ht, hd, hlen, he⟩
    have hehead : ∀ a, e.head? = some a → Char.isDigit a = false := by
      rcases he with rfl | ⟨f, rfl, _, _⟩
      · intro a ha
        cases ha
      · intro a ha
        cases ha
        decide
    obtain ⟨htw, hdw⟩ := takeWhile_dropWhile_append hd hehead
    simp only [isValid, zipPatternCore, Bool.and_eq_true]
    rw [ht, htw, hdw]
    refine ⟨⟨?_, ?_⟩, ?_⟩
    · simp only [decide_eq_true_eq]
      omega
    · simp only [decide_eq_true_eq]
      omega
    · rcases he with rfl | ⟨f, rfl, hf, hf4⟩
      · rfl
      · simp [hf4, List.all_eq_true.mpr hf]

/-- C4 (counterexample): the batch pipeline performs no validation at all.
The code `"abc"` fails the claimed pattern `^\d{5}(-\d{4})?$`, yet with a
network oracle serving a density page the batch produces the extracted
figure for it — the record was fetched and extracted, and no
`Error("invalid zip code")` state exists. -/
theorem batch_fetches_invalid_zip :
    specZipPattern (pyStrip ("abc".data)) = false ∧
    process_csv_file
        (fun _ => Response.success (asciiBytes
          "It has a population density of 1,234.5 people per square mile of land."))
        [Row.mk ("abc".data) []] =
      [OutRow.mk ("abc".data) [] ("1,234.5".data)] :=
  ⟨by decide, by decide⟩

/-- C4 (amended): the batch pipeline is normalize → fetch → extract with no
validation step: every record, valid or not, is classified solely by its
fetch-and-extract outcome (the extracted figure, or `"Not Found"`), and no
record is ever flagged with an `"invalid zip code"` error. -/
theorem batch_no_validation :
    ∀ (net : List Char → Response) (rows : List Row) (o : OutRow),
      o ∈ process_csv_file net rows →
      o.density ≠ "invalid zip code".data ∧
      ((∃ g, get_population_density net o.zipcode = some g ∧ o.density = g) ∨
        (get_population_density net o.zipcode = none ∧
          o.density = "Not Found".data)) := by
  intro net rows o ho
  rw [process_csv_eq_map] at ho
  obtain ⟨r, _, rfl⟩ := List.mem_map.mp ho
  have hcell := densityCell_cases net (format_zipcode r.zipcode)
  constructor
  · rcases hcell with ⟨g, hg, hc⟩ | ⟨hg, hc⟩
    · have hchar := get_population_density_charset hg
      intro heq
      simp only [rowOutcome] at heq
      rw [hc] at heq
      have hmem : ('i' : Char) ∈ g := by
        rw [heq]
        decide
      have := hchar.2 'i' hmem
      exact absurd this (by decide)
    · intro heq
      simp only [rowOutcome] at heq
      rw [hc] at heq
      exact absurd heq (by decide)
  · simpa only [rowOutcome] using hcell

/-- C4 (witness): the amended-claim theorem applied at a concrete batch of
one record whose code is invalid and whose fetch fails with a 404. -/
theorem batch_no_validation_witness :
    OutRow.mk ("abc".data) [] ("Not Found".data) ∈
        process_csv_file (fun _ => Response.httpError 404 []) [Row.mk ("abc".data) []] ∧
      (OutRow.mk ("abc".data) [] ("Not Found".data)).density ≠ "invalid zip code".data :=
  ⟨by decide, (batch_no_validation (fun _ => Response.httpError 404 [])
    [Row.mk ("abc".data) []] (OutRow.mk ("abc".data) [] ("Not Found".data))
    (by decide)).1⟩

/-- C5 (counterexample): a 404 and a 500 response produce the same returned
value — `None` — so a 404 is not distinguishable from other HTTP statuses in
the value `get_population_density` returns. -/
theorem http_404_indistinguishable :
    get_population_density (fun _ => Response.httpError 404 []) ("90210".data) =
      get_population_density (fun _ => Response.httpError 500 []) ("90210".data) ∧
    get_population_density (fun _ => Response.httpError 404 []) ("90210".data) = none :=
  ⟨rfl, rfl⟩

/-- C5 (amended): on an HTTP error response the fetch returns `None`
whatever the status code is; the 404 case is distinguished only in the
warning message shown to the user, not in the returned value. -/
theorem http_errors_return_none :
    (∀ (z : List Char) (code : Nat) (reason : List Char),
        get_population_density (fun _ => Response.httpError code reason) z = none) ∧
    gpd_warning ("90210".data) (Response.httpError 404 []) ≠
      gpd_warning ("90210".data) (Response.httpError 500 []) :=
  ⟨fun _ _ _ => rfl, by decide⟩

/-- C6 (counterexample): normalization is not idempotent — for the input
`"1-2 -3"` one application gives `"00001-2 "` and a second application
strips the exposed trailing blank, giving `"00001-2"`. -/
theorem format_zipcode_not_idempotent :
    format_zipcode (format_zipcode ("1-2 -3".data)) ≠ format_zipcode ("1-2 -3".data) := by
  decide

/-- C6 (amended): normalization is idempotent for every input containing at
most one hyphen (the failures need two or more hyphens, whose split drops a
segment and can expose trailing whitespace). -/
theorem format_zipcode_idem_single_hyphen :
    ∀ s : List Char, s.count '-' ≤ 1 →
      format_zipcode (format_zipcode s) = format_zipcode s :=
  fun _ h => format_idem_aux h

/-- C6 (witness): the amended idempotence at the concrete input
`"1234-5678"`, which has one hyphen. -/
theorem format_zipcode_idem_witness :
    ("1234-5678".data).count '-' ≤ 1 ∧
      format_zipcode (format_zipcode ("1234-5678".data)) =
        format_zipcode ("1234-5678".data) :=
  ⟨by decide, format_zipcode_idem_single_hyphen ("1234-5678".data) (by decide)⟩

/-- C7 (counterexample): the decode loop calls `decode(encoding,
errors="replace")`, so on the byte `0xFF` it accepts lossy UTF-8 and yields
U+FFFD, whereas the claimed strict chain would reject UTF-8 and accept
Latin-1, yielding U+00FF: the code does not implement the claimed chain. -/
theorem decode_not_strict_chain :
    decodeHtml [255] = [replacementChar] ∧
    claimDecodeChain [255] = [Char.ofNat 255] ∧
    decodeHtml [255] ≠ claimDecodeChain [255] :=
  ⟨by decide, by decide, by decide⟩

/-- C7 (amended): because every iteration decodes with lossy replacement,
the first iteration (UTF-8) always succeeds: the decoded text is always the
UTF-8-with-replacement decoding, the other encodings and the final fallback
are unreachable, and decoding never raises for any byte input. -/
theorem decode_always_utf8_replace :
    (∀ bs : List Nat, decodeHtml bs = utf8DecodeReplace bs) ∧
    decodeHtml (asciiBytes "density page") = "density page".data :=
  ⟨fun _ => rfl, by decide⟩

/-- C8: per-record isolation in the batch. The output always has one record
per input; the record at each position is a function of that input row
alone (so a failure on one record cannot abort, skip or alter any other);
and every record reaches a terminal cell — the extracted figure on success,
the `"Not Found"` marker on any fetch failure or extraction miss — because
every error arm of `get_population_density` returns `None` rather than
propagating. -/
theorem batch_isolation :
    ∀ (net : List Char → Response) (rows : List Row),
      (process_csv_file net rows).length = rows.length ∧
      (∀ i : Nat, (process_csv_file net rows)[i]? = (rows[i]?).map (rowOutcome net)) ∧
      (∀ z : List Char,
        (∃ g, get_population_density net z = some g ∧ densityCell net z = g) ∨
        (get_population_density net z = none ∧
          densityCell net z = "Not Found".data)) := by
  intro net rows
  refine ⟨?_, ?_, densityCell_cases net⟩
  · rw [process_csv_eq_map]
    exact List.length_map rows _
  · intro i
    rw [process_csv_eq_map]
    exact List.getElem?_map (rowOutcome net) rows i

/-- C9 (counterexample): the output table is not the input plus an appended
density column.  Two original columns change: line 146 lowercases every
column header, so the header `"City"` comes out as `"city"` (and
`"ZipCode"` as `"zipcode"`), and line 153 overwrites the `zipcode` column
with the normalized codes, so the input cell `"1234"` comes out as
`"01234"`. -/
theorem batch_rewrites_zipcode_column :
    process_csv_table (fun _ => Response.httpError 404 [])
        (Table.mk ("ZipCode".data) ["City".data] [Row.mk ("1234".data) ["x".data]]) =
      some (OutTable.mk ("zipcode".data) ["city".data] ("Population Density".data)
        [OutRow.mk ("01234".data) ["x".data] ("Not Found".data)]) ∧
    "city".data ≠ "City".data ∧ "01234".data ≠ "1234".data :=
  ⟨by decide, by decide, by decide⟩

/-- C9 (amended): whenever the batch accepts the table (its zip-code
column's lowered header is `zipcode`), the output has exactly one row per
input row, in input order; every column header — the zip-code column's and
every other column's — is lowercased in the output, and a
`Population Density` column is appended; the cell values of every column
other than `zipcode` are preserved unchanged; the `zipcode` column holds
the normalized codes (so its cells may differ from the input); and the
appended density cell always holds a value — the extracted figure or the
literal `"Not Found"` — never a blank. -/
theorem batch_frame :
    ∀ (net : List Char → Response) (t : Table) (o : OutTable),
      process_csv_table net t = some o →
      o.rows.length = t.rows.length ∧
      o.zipcodeHeader = pyLower t.zipcodeHeader ∧
      o.otherHeaders = t.otherHeaders.map pyLower ∧
      o.densityHeader = "Population Density".data ∧
      (∀ i : Nat, (o.rows[i]?).map OutRow.other = (t.rows[i]?).map Row.other) ∧
      (∀ i : Nat, (o.rows[i]?).map OutRow.zipcode =
        (t.rows[i]?).map (fun r => format_zipcode r.zipcode)) ∧
      (∀ z : List Char, densityCell net z ≠ []) := by
  intro net t o h
  unfold process_csv_table at h
  by_cases hz : pyLower t.zipcodeHeader = "zipcode".data
  · rw [if_pos hz] at h
    injection h with h2
    subst h2
    refine ⟨?_, rfl, rfl, rfl, ?_, ?_, densityCell_ne_nil net⟩
    · show (process_csv_file net t.rows).length = t.rows.length
      rw [process_csv_eq_map]
      exact List.length_map t.rows _
    · intro i
      show ((process_csv_file net t.rows)[i]?).map OutRow.other =
        (t.rows[i]?).map Row.other
      rw [process_csv_eq_map, List.getElem?_map (rowOutcome net) t.rows i,
        Option.map_map]
      rfl
    · intro i
      show ((process_csv_file net t.rows)[i]?).map OutRow.zipcode =
        (t.rows[i]?).map (fun r => format_zipcode r.zipcode)
      rw [process_csv_eq_map, List.getElem?_map (rowOutcome net) t.rows i,
        Option.map_map]
      rfl
  · rw [if_neg hz] at h
    cases h

/-- C9 (witness): the amended-claim theorem applied to a concrete accepted
table of one row, its hypothesis discharged by computation. -/
theorem batch_frame_witness :
    (OutTable.mk ("zipcode".data) [] ("Population Density".data)
        [OutRow.mk ("90210".data) [] ("Not Found".data)]).rows.length =
      (Table.mk ("ZipCode".data) [] [Row.mk ("90210".data) []]).rows.length :=
  (batch_frame (fun _ => Response.httpError 404 [])
    (Table.mk ("ZipCode".data) [] [Row.mk ("90210".data) []])
    (OutTable.mk ("zipcode".data) [] ("Population Density".data)
      [OutRow.mk ("90210".data) [] ("Not Found".data)]) (by decide)).1

/-- C10: the single-code lookup is total over the modelled outcomes: it
returns `None`, or the captured substring, which is non-empty, contains
only digits, commas and periods, and in particular contains no minus sign;
every HTTP error, transport error and other exception arm returns `None`
instead of propagating; and a 404 response and a successfully fetched page
without a density figure are indistinguishable — both return `None`. -/
theorem get_population_density_total :
    ∀ (net : List Char → Response) (z : List Char),
      (get_population_density net z = none ∨
        ∃ g, get_population_density net z = some g ∧ g ≠ [] ∧
          (∀ c ∈ g, isAltNumChar c = true) ∧ ('-' : Char) ∉ g) ∧
      (∀ (code : Nat) (reason : List Char),
        get_population_density (fun _ => Response.httpError code reason) z = none) ∧
      (∀ reason : List Char,
        get_population_density (fun _ => Response.urlError reason) z = none) ∧
      (∀ msg : List Char,
        get_population_density (fun _ => Response.otherError msg) z = none) ∧
      get_population_density
        (fun _ => Response.success (asciiBytes "<html>No figure in sight.</html>"))
        z = none := by
  intro net z
  refine ⟨?_, fun _ _ => rfl, fun _ => rfl, fun _ => rfl, ?_⟩
  · cases h : get_population_density net z with
    | none => exact Or.inl rfl
    | some g =>
      right
      obtain ⟨hne, hchar⟩ := get_population_density_charset h
      refine ⟨g, rfl, hne, hchar, ?_⟩
      intro hmem
      have := hchar '-' hmem
      exact absurd this (by decide)
  · show extractFromHtml (decodeHtml (asciiBytes "<html>No figure in sight.</html>")) = none
    decide
